import Mathlib

/-!
Shallow embedding of the languageForge domain/persistence layer
(`src/core/logic_goals.py`, `logic_profiles.py`, `logic_radar.py`,
`logic_dailyplan.py`, `logic_tracker.py`, `storage.py`).

JSON documents read from disk are modelled by `PyVal`, a model of the
Python values that `json.load` can produce (plus `None`/`bool`/`int`
scalars).  Python dicts are modelled as insertion-ordered association
lists, matching CPython dict semantics for documents produced by
`json.load` (unique keys, insertion order preserved).
-/

set_option maxHeartbeats 1000000

inductive PyVal : Type where
  | vNone : PyVal
  | vBool : Bool → PyVal
  | vInt : Int → PyVal
  | vStr : String → PyVal
  | vList : List PyVal → PyVal
  | vDict : List (String × PyVal) → PyVal

namespace PyVal

/-- Python truthiness (`bool(x)`): `None`, `False`, `0`, `""`, `[]`, `{}`
are falsy; everything else is truthy. -/
def truthy : PyVal → Bool
  | vNone => false
  | vBool b => b
  | vInt n => n != 0
  | vStr s => s ≠ ""
  | vList xs => !xs.isEmpty
  | vDict fs => !fs.isEmpty

/-- Python `x or default`: returns `x` when truthy, otherwise `default`. -/
def pyOr (x d : PyVal) : PyVal := if x.truthy then x else d

end PyVal

/-- `d.get(k)` on an (insertion-ordered, unique-key) dict, as `Option`. -/
def dictGet? (fs : List (String × PyVal)) (k : String) : Option PyVal :=
  match fs with
  | [] => none
  | (k', v) :: rest => if k' = k then some v else dictGet? rest k

/-- `d.get(k, dflt)` on a dict. -/
def dictGetD (fs : List (String × PyVal)) (k : String) (dflt : PyVal) : PyVal :=
  (dictGet? fs k).getD dflt

/-- `d[k] = v` on an insertion-ordered dict: updates the existing entry in
place if `k` is present, otherwise appends the new entry at the end
(CPython dict semantics). -/
def dictSet (fs : List (String × PyVal)) (k : String) (v : PyVal) :
    List (String × PyVal) :=
  match fs with
  | [] => [(k, v)]
  | (k', v') :: rest =>
      if k' = k then (k', v) :: rest else (k', v') :: dictSet rest k v

/-- Python `repr` of a string, as used when a string appears inside the
`str()` of a container: wrapped in single quotes.  (Pythons escaping of
embedded quotes and control characters is elided; no theorem below
depends on the rendering of container contents.) -/
def pyQuote (s : String) : String := "\x27" ++ s ++ "\x27"

mutual

/-- Python `str(x)`. -/
def pyStr : PyVal → String
  | .vNone => "None"
  | .vBool true => "True"
  | .vBool false => "False"
  | .vInt n => toString n
  | .vStr s => s
  | .vList xs => "[" ++ String.intercalate ", " (pyReprList xs) ++ "]"
  | .vDict fs => "\x7b" ++ String.intercalate ", " (pyReprPairs fs) ++ "\x7d"

/-- Python `repr(x)`, for values nested inside containers (differs from
`str` only on strings, which get quoted). -/
def pyRepr : PyVal → String
  | .vNone => "None"
  | .vBool true => "True"
  | .vBool false => "False"
  | .vInt n => toString n
  | .vStr s => pyQuote s
  | .vList xs => "[" ++ String.intercalate ", " (pyReprList xs) ++ "]"
  | .vDict fs => "\x7b" ++ String.intercalate ", " (pyReprPairs fs) ++ "\x7d"

def pyReprList : List PyVal → List String
  | [] => []
  | x :: xs => pyRepr x :: pyReprList xs

def pyReprPairs : List (String × PyVal) → List String
  | [] => []
  | (k, v) :: fs => (pyQuote k ++ ": " ++ pyRepr v) :: pyReprPairs fs

end

/-- Python `list(x)`: succeeds on iterables (`list`, `str` — yielding its
characters as one-character strings — and `dict` — yielding its keys);
raises `TypeError` on `None`, `bool`, `int`. -/
def pyToList : PyVal → Except String (List PyVal)
  | .vList xs => .ok xs
  | .vStr s => .ok (s.toList.map (fun c => .vStr (String.singleton c)))
  | .vDict fs => .ok (fs.map (fun p => PyVal.vStr p.1))
  | .vNone => .error "TypeError"
  | .vBool _ => .error "TypeError"
  | .vInt _ => .error "TypeError"

/-- Whether a value is a Python `str`. -/
def isPyStr : PyVal → Bool
  | .vStr _ => true
  | _ => false

/-- Whether a value is a Python `dict` (`isinstance(x, dict)`). -/
def isPyDict : PyVal → Bool
  | .vDict _ => true
  | _ => false

/-! ## Character-level string helpers

Python string primitives are modelled on `List Char` (Python strings
are sequences of code points, Lean `Char`s). -/

/-- Python `s.replace(ab, rep)` for a two-character pattern `ab`:
non-overlapping replacement, scanning left to right and resuming after
each replacement. -/
def replace2 (a b : Char) (rep : List Char) : List Char → List Char
  | [] => []
  | [c] => [c]
  | c :: d :: rest =>
      if c = a ∧ d = b then rep ++ replace2 a b rep rest
      else c :: replace2 a b rep (d :: rest)

/-- Whether the two-character pattern `ab` occurs in the list
(Python `ab in s`). -/
def hasPair (a b : Char) : List Char → Bool
  | [] => false
  | [_] => false
  | c :: d :: rest => if c = a ∧ d = b then true else hasPair a b (d :: rest)

/-- Python `s.strip(...)` with the characters to strip given as a
predicate: drop matching characters from both ends. -/
def stripEnds (p : Char → Bool) (l : List Char) : List Char :=
  ((l.dropWhile p).reverse.dropWhile p).reverse

/-- Python `s.strip()` (no argument): strip whitespace from both ends. -/
def pyStrip (s : String) : String :=
  String.mk (stripEnds (fun c => c.isWhitespace) s.data)

/-- Lexicographic code-point comparison of character lists, as Python
`<` on strings. -/
def charListLt : List Char → List Char → Bool
  | [], [] => false
  | [], _ :: _ => true
  | _ :: _, [] => false
  | c :: cs, d :: ds => if c < d then true else if d < c then false else charListLt cs ds

/-- Python `a < b` on strings. -/
def pyStrLt (a b : String) : Bool := charListLt a.data b.data

/-- Python `s.lower()` (ASCII case mapping). -/
def pyLower (s : String) : String := String.mk (s.data.map Char.toLower)

/-! ## Monthly Goals module (`src/core/logic_goals.py`) -/

/-- In-memory `MonthlyGoals` record, as produced by `load_goals_for_month`.
Scalar array fields hold whatever Python values were stored (the loader
pads/truncates them but does not coerce their elements), so they are
`PyVal`-typed; subtask slots are str/bool-coerced by the loader. -/
structure MonthlyGoals where
  month : String
  goals : List PyVal
  completed : List PyVal
  notes : PyVal
  archived : Bool
  categories : List PyVal
  reflections : List PyVal
  subtasks : List (List String)
  subtasks_done : List (List Bool)
  created_at : List PyVal
  completed_at : List PyVal

/-- `_pad_list(lst, default)` (after the `list(lst)` conversion): append
`default` while shorter than 3, then truncate to 3. -/
def pad_list (lst : List PyVal) (dflt : PyVal) : List PyVal :=
  (lst ++ List.replicate (3 - lst.length) dflt).take 3

/-- One iteration of the subtasks-normalisation loop (lines 94–102 of
`logic_goals.py`): non-list slots become `[]`, the done-list is padded
with `False` to the subtask-list length and truncated to it, subtask
texts go through `str(...)` and done flags through `bool(...)`. -/
def norm_slot (st dn : PyVal) : List String × List Bool :=
  let st_list := match st with | .vList xs => xs | _ => []
  let done_list := match dn with | .vList xs => xs | _ => []
  let done_padded :=
    done_list ++ List.replicate (st_list.length - done_list.length) (PyVal.vBool false)
  (st_list.map pyStr, (done_padded.take st_list.length).map PyVal.truthy)

/-- The blank record returned for a completely new month
(lines 43–55 of `logic_goals.py`). -/
def blank_month_goals (month : String) : MonthlyGoals :=
  { month := month
    goals := [.vStr "", .vStr "", .vStr ""]
    completed := [.vBool false, .vBool false, .vBool false]
    notes := .vStr ""
    archived := false
    categories := [.vStr "General", .vStr "General", .vStr "General"]
    reflections := [.vStr "", .vStr "", .vStr ""]
    subtasks := [[], [], []]
    subtasks_done := [[], [], []]
    created_at := [.vStr "", .vStr "", .vStr ""]
    completed_at := [.vStr "", .vStr "", .vStr ""] }

/-- Body of `load_goals_for_month` after `raw = data.get(month)`
(lines 41–116): the per-month normalisation.  `Except` models the
`TypeError` that Python `list(...)` raises inside `_pad_list` when a
present, truthy scalar array field is not iterable. -/
def normalize_month (month : String) (raw : PyVal) : Except String MonthlyGoals :=
  match raw with
  | .vDict fs => do
      let goals0 := (dictGetD fs "goals" .vNone).pyOr
        (.vList [.vStr "", .vStr "", .vStr ""])
      let completed0 := (dictGetD fs "completed" .vNone).pyOr
        (.vList [.vBool false, .vBool false, .vBool false])
      let notes := (dictGetD fs "notes" .vNone).pyOr (.vStr "")
      let archived := (dictGetD fs "archived" (.vBool false)).truthy
      let categories0 := (dictGetD fs "categories" .vNone).pyOr (.vList [])
      let reflections0 := (dictGetD fs "reflections" .vNone).pyOr (.vList [])
      let subtasks0 := (dictGetD fs "subtasks" .vNone).pyOr (.vList [])
      let subtasks_done0 := (dictGetD fs "subtasks_done" .vNone).pyOr (.vList [])
      let created_at0 := (dictGetD fs "created_at" .vNone).pyOr (.vList [])
      let completed_at0 := (dictGetD fs "completed_at" .vNone).pyOr (.vList [])
      let goals ← pyToList goals0
      let completed ← pyToList completed0
      let categories ← pyToList categories0
      let reflections ← pyToList reflections0
      let created_at ← pyToList created_at0
      let completed_at ← pyToList completed_at0
      let subtasks := match subtasks0 with | .vList xs => xs | _ => []
      let subtasks_done := match subtasks_done0 with | .vList xs => xs | _ => []
      let st_padded := subtasks ++ List.replicate (3 - subtasks.length) (PyVal.vList [])
      let dn_padded :=
        subtasks_done ++ List.replicate (3 - subtasks_done.length) (PyVal.vList [])
      let slots := (List.range 3).map
        (fun i => norm_slot (st_padded.getD i (.vList [])) (dn_padded.getD i (.vList [])))
      return { month := month
               goals := pad_list goals (.vStr "")
               completed := pad_list completed (.vBool false)
               notes := notes
               archived := archived
               categories := pad_list categories (.vStr "General")
               reflections := pad_list reflections (.vStr "")
               subtasks := slots.map (·.1)
               subtasks_done := slots.map (·.2)
               created_at := pad_list created_at (.vStr "")
               completed_at := pad_list completed_at (.vStr "") }
  | _ => .ok (blank_month_goals month)

/-- `load_goals()`: the parsed `goals_v2.json` document if it is a dict,
otherwise `{}` (also covers the missing-file default). -/
def loadGoalsDoc (disk : PyVal) : List (String × PyVal) :=
  match disk with
  | .vDict fs => fs
  | _ => []

/-- `load_goals_for_month(month)` against the stored document `disk`. -/
def load_goals_for_month (month : String) (disk : PyVal) :
    Except String MonthlyGoals :=
  normalize_month month ((dictGet? (loadGoalsDoc disk) month).getD .vNone)

/-- Modelled from the spec: `MonthlyGoals.to_dict` from `core/models.py`,
which is not part of the published sources.  Per the spec data model
(§3, "Monthly Goals"), the record serialises field-by-field to the JSON
document shape used by `goals_v2.json`. -/
def MonthlyGoals.to_dict (g : MonthlyGoals) : List (String × PyVal) :=
  [ ("month", .vStr g.month)
  , ("goals", .vList g.goals)
  , ("completed", .vList g.completed)
  , ("notes", g.notes)
  , ("archived", .vBool g.archived)
  , ("categories", .vList g.categories)
  , ("reflections", .vList g.reflections)
  , ("subtasks", .vList (g.subtasks.map (fun l => PyVal.vList (l.map PyVal.vStr))))
  , ("subtasks_done",
      .vList (g.subtasks_done.map (fun l => PyVal.vList (l.map PyVal.vBool))))
  , ("created_at", .vList g.created_at)
  , ("completed_at", .vList g.completed_at) ]

/-- A stored value coerced to a Python list for iteration.  In
`save_goals_for_month` the scrutinee always comes from `to_dict`, whose
array fields are lists, so the default branch is unreachable there. -/
def asList : PyVal → List PyVal
  | .vList xs => xs
  | _ => []

/-- `_all_blank_str(items)`. -/
def all_blank_str (items : List PyVal) : Bool :=
  items.all (fun x => pyStrip (pyStr x) = "")

/-- `_all_false(items)`. -/
def all_false (items : List PyVal) : Bool :=
  items.all (fun x => !x.truthy)

/-- The `is_effectively_blank` test of `save_goals_for_month`
(lines 136–160 of `logic_goals.py`), on the candidate `new_obj`. -/
def is_effectively_blank (new_obj : List (String × PyVal)) : Bool :=
  let goals_list := asList ((dictGetD new_obj "goals" .vNone).pyOr (.vList []))
  let completed_list := asList ((dictGetD new_obj "completed" .vNone).pyOr (.vList []))
  let reflections_list := asList ((dictGetD new_obj "reflections" .vNone).pyOr (.vList []))
  let subtasks_list := asList ((dictGetD new_obj "subtasks" .vNone).pyOr (.vList []))
  let notes_val := (dictGetD new_obj "notes" .vNone).pyOr (.vStr "")
  let flat_subtasks := subtasks_list.foldr
    (fun v acc => match v with | PyVal.vList xs => xs ++ acc | _ => acc) []
  all_blank_str goals_list && all_false completed_list
    && all_blank_str reflections_list && all_blank_str flat_subtasks
    && (pyStrip (pyStr notes_val) = "")

/-- The blank test of the claims, stated directly on the in-memory
record: every goal text blank, every completed flag falsy, every
reflection blank, every subtask text blank, and notes blank (after the
guards own `or ""` defaulting). -/
def effectively_blank_rec (g : MonthlyGoals) : Bool :=
  all_blank_str g.goals && all_false g.completed && all_blank_str g.reflections
    && g.subtasks.all (fun l => l.all (fun s => pyStrip s = ""))
    && (pyStrip (pyStr (g.notes.pyOr (.vStr ""))) = "")

/-- `save_goals_for_month(goals, source)` against the stored document
`disk`.  Returns `none` when the function returns without writing
(the blank-overwrite guard) and `some doc` when it persists `doc`. -/
def save_goals_for_month (g : MonthlyGoals) (source : String) (disk : PyVal) :
    Option (List (String × PyVal)) :=
  let data := loadGoalsDoc disk
  let new_obj :=
    if source ≠ "" then dictSet g.to_dict "last_saved_by" (.vStr source)
    else g.to_dict
  let skip :=
    match dictGet? data g.month with
    | some (.vDict _) => is_effectively_blank new_obj
    | _ => false
  if skip then none else some (dictSet data g.month (.vDict new_obj))

/-- One iteration of the `auto_archive_past_goals` loop on a stored
`(month, raw)` entry: the updated entry plus whether it changed. -/
def archive_step (cur : String) : String × PyVal → (String × PyVal) × Bool
  | (m, .vDict fs) =>
      if pyStrLt m cur then
        if (dictGetD fs "archived" (.vBool false)).truthy then ((m, .vDict fs), false)
        else ((m, .vDict (dictSet fs "archived" (.vBool true))), true)
      else ((m, .vDict fs), false)
  | (m, v) => ((m, v), false)

/-- `auto_archive_past_goals(current_month_id)` against the stored
document `disk`.  Returns `none` when nothing changed (no write) and
`some doc` when it persists the updated document `doc`. -/
def auto_archive_past_goals (cur : String) (disk : PyVal) :
    Option (List (String × PyVal)) :=
  let data := loadGoalsDoc disk
  let stepped := data.map (archive_step cur)
  if stepped.any (·.2) then some (stepped.map (·.1)) else none

/-! ## Radar module (`src/core/logic_radar.py`) -/

/-- The four skill values of one radar snapshot, read with
`snapshot.get(key, 0)`.  Stored ratings are integers (nominal 1–5);
the arithmetic on them below is dyadic, so the Python float computation
is exact and is modelled in `ℚ`. -/
structure RadarSkills where
  reading : Int
  listening : Int
  speaking : Int
  writing : Int

/-- Python `round()` on an exactly-represented value: round half to even. -/
def pyRound (q : ℚ) : ℤ :=
  if q - ⌊q⌋ < 1/2 then ⌊q⌋
  else if q - ⌊q⌋ > 1/2 then ⌊q⌋ + 1
  else if ⌊q⌋ % 2 = 0 then ⌊q⌋ else ⌊q⌋ + 1

/-- `compute_balance_index(snapshot)` (lines 30–52 of `logic_radar.py`). -/
def compute_balance_index (s : RadarSkills) : Option ℤ :=
  let values : List ℚ := [(s.reading : ℚ), (s.listening : ℚ), (s.speaking : ℚ), (s.writing : ℚ)]
  if values.all (fun v => v = 0) then none
  else
    let avg := values.sum / 4
    let deviations := (values.map (fun v => |v - avg|)).sum / 4
    let score : ℚ := 100 * (1 - min deviations 2 / 2)
    some (max 0 (min 100 (pyRound score)))

/-- The mean absolute deviation of the four skills from their mean, as
the spec states the balance formula. -/
def madSpec (s : RadarSkills) : ℚ :=
  let m : ℚ := ((s.reading : ℚ) + s.listening + s.speaking + s.writing) / 4
  (|(s.reading : ℚ) - m| + |(s.listening : ℚ) - m|
    + |(s.speaking : ℚ) - m| + |(s.writing : ℚ) - m|) / 4

/-! ## Daily Plan module (`src/core/logic_dailyplan.py`) -/

structure DailyPlan where
  tasks : List String
  show_on_startup : Bool

/-- `_default()` of `logic_dailyplan.py`. -/
def dailyPlanDefault : List (String × PyVal) :=
  [ ("tasks", .vList [.vStr "", .vStr "", .vStr "", .vStr ""])
  , ("show_on_startup", .vBool false) ]

/-- `load_daily_plan()` against the stored `dailyplan.json` content
(`none` models a missing file, for which `load_profile_json` returns
the `_default()` dict). -/
def load_daily_plan (stored : Option PyVal) : DailyPlan :=
  let data : List (String × PyVal) :=
    match stored with
    | none => dailyPlanDefault
    | some (.vDict fs) => fs
    | some _ => dailyPlanDefault
  let tasks0 : List String :=
    match dictGet? data "tasks" with
    | some (.vList xs) => xs.map pyStr
    | _ => []
  let tasks1 :=
    if tasks0 = [] then
      [ pyStr (dictGetD data "morning" (.vStr ""))
      , pyStr (dictGetD data "afternoon" (.vStr ""))
      , pyStr (dictGetD data "evening" (.vStr "")) ]
    else tasks0
  let tasks2 := (tasks1 ++ List.replicate (4 - tasks1.length) "").take 4
  { tasks := tasks2
    show_on_startup := (dictGetD data "show_on_startup" (.vBool false)).truthy }

/-! ## Profile Registry (`src/core/logic_profiles.py`) -/

def MAX_PROFILES : Nat := 50
def MAX_PROFILE_NAME_LENGTH : Nat := 30
def MIN_PROFILE_NAME_LENGTH : Nat := 1

def INVALID_CHARS : List Char := ['/', '\\', ':', '*', '?', '"', '<', '>', '|']

def RESERVED_NAMES : List String := ["settings", "profiles", "temp", "backup", "default"]

/-- The `while '__' in folder_name: folder_name = folder_name.replace('__', '_')`
loop.  Each replacement strictly shortens the string, so `l.length`
iterations always reach the loop exit; the fuel makes the definition
structural (see `collapseUnderscores_no_pair`). -/
def collapseUnderscoresFuel : Nat → List Char → List Char
  | 0, l => l
  | fuel + 1, l =>
      if hasPair '_' '_' l then collapseUnderscoresFuel fuel (replace2 '_' '_' ['_'] l)
      else l

def collapseUnderscores (l : List Char) : List Char :=
  collapseUnderscoresFuel l.length l

/-- `sanitize_profile_name(name)` (lines 36–67 of `logic_profiles.py`). -/
def sanitize_profile_name (name : String) : String :=
  if name = "" then ""
  else
    let n1 := stripEnds (fun c => c.isWhitespace) name.data
    let n2 := INVALID_CHARS.foldl (fun acc ch => acc.filter (fun c => c ≠ ch)) n1
    let n3 := replace2 '.' '.' [] n2
    let n4 := n3.take MAX_PROFILE_NAME_LENGTH
    let n5 := n4.map Char.toLower
    let n6 := n5.map (fun c => if c = ' ' then '_' else c)
    let n7 := collapseUnderscores n6
    String.mk (stripEnds (fun c => c = '_') n7)

structure Profile where
  id : String
  display_name : String
  created_at : String
  last_used : String

/-- The profiles registry document (`profiles.json`), typed: the claims
under verification never exercise a malformed registry, whose load path
degrades to `_default_profiles_data()`. -/
structure Registry where
  active_profile : String
  profiles : List Profile

def default_profiles_data (now : String) : Registry :=
  { active_profile := "default"
    profiles := [⟨"default", "Default", now, now⟩] }

def list_profiles (reg : Registry) : List Profile := reg.profiles

def profile_exists (pid : String) (reg : Registry) : Bool :=
  (list_profiles reg).any (fun p => p.id = pid)

/-- `_ensure_default_profile()` on the registry document. -/
def ensure_default_profile (now : String) (reg : Registry) : Registry :=
  if profile_exists "default" reg then reg
  else { active_profile := "default"
         profiles := reg.profiles ++ [⟨"default", "Default", now, now⟩] }

/-- Process state: the `_current_profile_id` global cache, the registry
document, and the per-profile JSON files keyed by
`(profile_id, filename)`. -/
structure World where
  cache : Option String
  registry : Registry
  files : List ((String × String) × PyVal)

/-- `get_active_profile_id()`: cached id if set; otherwise validate the
registry pointer, falling back to the first profile or bootstrapping the
default profile; caches the result. -/
def get_active_profile_id (now : String) (w : World) : String × World :=
  match w.cache with
  | some pid => (pid, w)
  | none =>
      let reg := w.registry
      let active_id := reg.active_profile
      if reg.profiles.any (fun p => p.id = active_id) then
        (active_id, { w with cache := some active_id })
      else
        match reg.profiles with
        | p :: _ => (p.id, { w with cache := some p.id })
        | [] =>
            ("default", { w with cache := some "default"
                                 registry := ensure_default_profile now reg })

/-- The `last_used` update inside `set_active_profile`: stamps the first
profile with a matching id (the loop breaks after the first hit). -/
def touch_last_used (pid now : String) : List Profile → List Profile
  | [] => []
  | p :: ps =>
      if p.id = pid then { p with last_used := now } :: ps
      else p :: touch_last_used pid now ps

/-- `set_active_profile(profile_id)`. -/
def set_active_profile (pid now : String) (w : World) : Bool × World :=
  let reg := w.registry
  if ¬ reg.profiles.any (fun p => p.id = pid) then (false, w)
  else
    (true, { w with cache := some pid
                    registry := { active_profile := pid
                                  profiles := touch_last_used pid now reg.profiles } })

/-- `create_profile(display_name)`.  `dirOk` models whether the
`get_profile_data_dir` filesystem call succeeds. -/
def create_profile (display_name now : String) (dirOk : Bool) (reg : Registry) :
    (Bool × String) × Registry :=
  if display_name.length < MIN_PROFILE_NAME_LENGTH then
    ((false, "Profile name is too short."), reg)
  else if display_name.length > MAX_PROFILE_NAME_LENGTH then
    ((false, "Profile name must be 30 characters or less."), reg)
  else if (list_profiles reg).length ≥ MAX_PROFILES then
    ((false, "Maximum profiles (50) reached. Delete unused profiles first."), reg)
  else
    let profile_id := sanitize_profile_name display_name
    if profile_id = "" then
      ((false, "Profile name contains only invalid characters."), reg)
    else if RESERVED_NAMES.contains (pyLower profile_id) then
      ((false, pyQuote display_name ++ " is a reserved name."), reg)
    else if profile_exists profile_id reg then
      ((false, "Profile " ++ pyQuote display_name ++ " already exists."), reg)
    else if ¬ dirOk then
      ((false, "Failed to create profile directory: OSError"), reg)
    else
      ((true, "Profile " ++ pyQuote display_name ++ " created successfully."),
       { reg with profiles := reg.profiles ++ [⟨profile_id, display_name, now, now⟩] })

/-- `delete_profile(profile_id)`.  `dirOk` models whether the best-effort
`shutil.rmtree` succeeds; its failure is swallowed, so only `files` can
depend on it. -/
def delete_profile (pid now : String) (dirOk : Bool) (w : World) :
    (Bool × String) × World :=
  if pid = "default" then
    ((false, "Cannot delete the default profile."), w)
  else
    let res := get_active_profile_id now w
    let w1 := res.2
    if pid = res.1 then
      ((false, "Cannot delete the currently active profile. Switch to another profile first."), w1)
    else if ¬ profile_exists pid w1.registry then
      ((false, "Profile " ++ pyQuote pid ++ " does not exist."), w1)
    else
      let reg' := { w1.registry with
                    profiles := w1.registry.profiles.filter (fun p => p.id ≠ pid) }
      let files' := if dirOk then w1.files.filter (fun e => e.1.1 ≠ pid) else w1.files
      ((true, "Profile deleted successfully."),
       { w1 with registry := reg', files := files' })

/-! ## Profile-scoped JSON store (`src/core/storage.py`) -/

def lookupFile (files : List ((String × String) × PyVal)) (pid fname : String) :
    Option PyVal :=
  match files with
  | [] => none
  | (key, v) :: rest =>
      if key = (pid, fname) then some v else lookupFile rest pid fname

def setFile (files : List ((String × String) × PyVal)) (pid fname : String)
    (v : PyVal) : List ((String × String) × PyVal) :=
  match files with
  | [] => [((pid, fname), v)]
  | (key, v') :: rest =>
      if key = (pid, fname) then (key, v) :: rest
      else (key, v') :: setFile rest pid fname v

/-- `load_profile_json(filename, default, profile_id)`: resolves the
active profile at call time when `profile_id` is omitted. -/
def load_profile_json (fname : String) (dflt : PyVal) (pid? : Option String)
    (now : String) (w : World) : PyVal × World :=
  match pid? with
  | some pid => ((lookupFile w.files pid fname).getD dflt, w)
  | none =>
      let res := get_active_profile_id now w
      ((lookupFile res.2.files res.1 fname).getD dflt, res.2)

/-- `save_profile_json(filename, data, profile_id)`. -/
def save_profile_json (fname : String) (v : PyVal) (pid? : Option String)
    (now : String) (w : World) : World :=
  match pid? with
  | some pid => { w with files := setFile w.files pid fname v }
  | none =>
      let res := get_active_profile_id now w
      { res.2 with files := setFile res.2.files res.1 fname v }

/-! ## Daily Activity / Tracker (`src/core/logic_tracker.py`) -/

/-- `load_daily_activity()`. -/
def load_daily_activity (now : String) (w : World) : PyVal × World :=
  let res := load_profile_json "tracker.json" (.vDict []) none now w
  (if isPyDict res.1 then res.1 else .vDict [], res.2)

/-- `save_daily_activity(activity)`. -/
def save_daily_activity (activity : PyVal) (now : String) (w : World) : World :=
  save_profile_json "tracker.json" activity none now w

/-! ## Path resolution (`get_profiles_dir` / `get_profile_data_dir`) -/

/-- `pathlib`-style join of one segment: single-dot components are
collapsed (`Path(p) / "." == Path(p)`). -/
def pathJoin (p : List String) (seg : String) : List String :=
  if seg = "." then p else p ++ [seg]

/-- `get_profiles_dir()`, relative to the data-root path `root`. -/
def get_profiles_dir (root : List String) : List String :=
  pathJoin root "profiles"

/-- `get_profile_data_dir(profile_id)`. -/
def get_profile_data_dir (root : List String) (pid : String) : List String :=
  pathJoin (get_profiles_dir root) pid

/-! ## Theorems -/

theorem pyRound_intCast (n : ℤ) : pyRound (n : ℚ) = n := by
  simp [pyRound, Int.floor_intCast]

/-- C7: `compute_balance_index` returns `null` exactly when all four
skill values are zero; four equal nonzero values give `100`; otherwise
the result is `round(100 × (1 − min(mad, 2)/2))` clamped to `[0, 100]`
(with `mad` the mean absolute deviation), and skills `[5,1,1,1]` give
`25`. -/
theorem compute_balance_index_spec (s : RadarSkills) :
    (compute_balance_index s = none ↔
      s.reading = 0 ∧ s.listening = 0 ∧ s.speaking = 0 ∧ s.writing = 0) ∧
    (s.reading = s.listening → s.listening = s.speaking → s.speaking = s.writing →
      s.reading ≠ 0 → compute_balance_index s = some 100) ∧
    (¬(s.reading = 0 ∧ s.listening = 0 ∧ s.speaking = 0 ∧ s.writing = 0) →
      compute_balance_index s =
        some (max 0 (min 100 (pyRound (100 * (1 - min (madSpec s) 2 / 2)))))) ∧
    compute_balance_index ⟨5, 1, 1, 1⟩ = some 25 := by
  obtain ⟨r, l, sp, w⟩ := s
  have hall : (([(r : ℚ), (l : ℚ), (sp : ℚ), (w : ℚ)]).all (fun v => decide (v = 0)) = true) ↔
      (r = 0 ∧ l = 0 ∧ sp = 0 ∧ w = 0) := by
    simp [Int.cast_eq_zero]
  refine ⟨?_, ?_, ?_, ?_⟩
  · simp only [compute_balance_index]
    constructor
    · intro h
      by_contra hne
      rw [if_neg] at h
      · exact Option.some_ne_none _ h
      · intro hc; exact hne (hall.mp hc)
    · intro h
      rw [if_pos (hall.mpr h)]
  · intro h1 h2 h3 h0
    dsimp only at h1 h2 h3 h0
    subst h1; subst h2; subst h3
    simp only [compute_balance_index]
    rw [if_neg (by intro hc; exact h0 (hall.mp hc).1)]
    simp only [List.map_cons, List.map_nil, List.sum_cons, List.sum_nil, add_zero]
    have habs : |(r : ℚ) - ((r : ℚ) + ((r : ℚ) + ((r : ℚ) + (r : ℚ)))) / 4| = 0 := by
      rw [abs_eq_zero]; ring
    rw [habs]
    norm_num [pyRound, max_def, min_def]
  · intro hne
    simp only [compute_balance_index]
    rw [if_neg (fun hc => hne (hall.mp hc))]
    congr 1
    have : ([(r : ℚ), (l : ℚ), (sp : ℚ), (w : ℚ)].map
        (fun v => |v - [(r : ℚ), (l : ℚ), (sp : ℚ), (w : ℚ)].sum / 4|)).sum / 4 = madSpec ⟨r, l, sp, w⟩ := by
      have hsum : ((r : ℚ) + ((l : ℚ) + ((sp : ℚ) + (w : ℚ)))) = (r : ℚ) + l + sp + w := by ring
      simp only [madSpec, List.map_cons, List.map_nil, List.sum_cons, List.sum_nil, add_zero]
      rw [hsum]
      ring
    rw [this]
  · norm_num [compute_balance_index, pyRound]

/-- Witness for C7: equal nonzero skills score 100. -/
theorem compute_balance_index_spec_witness :
    compute_balance_index ⟨3, 3, 3, 3⟩ = some 100 :=
  (compute_balance_index_spec ⟨3, 3, 3, 3⟩).2.1 rfl rfl rfl (by decide)

theorem pad4_length (l : List String) :
    ((l ++ List.replicate (4 - l.length) "").take 4).length = 4 := by
  simp [List.length_take, List.length_append, List.length_replicate]
  omega

/-- C8: `load_daily_plan` always yields exactly 4 task strings (plus the
`show_on_startup` boolean); when the stored document has no `tasks`
array, or an empty one, the legacy `morning`/`afternoon`/`evening`
fields populate slots 0–2 and slot 3 is the empty string. -/
theorem load_daily_plan_spec :
    (∀ stored : Option PyVal, (load_daily_plan stored).tasks.length = 4) ∧
    (∀ fs : List (String × PyVal),
      (dictGet? fs "tasks" = none ∨ dictGet? fs "tasks" = some (.vList [])) →
      (load_daily_plan (some (.vDict fs))).tasks =
        [ pyStr (dictGetD fs "morning" (.vStr ""))
        , pyStr (dictGetD fs "afternoon" (.vStr ""))
        , pyStr (dictGetD fs "evening" (.vStr "")), "" ]) := by
  constructor
  · intro stored
    simp only [load_daily_plan]
    exact pad4_length _
  · intro fs h
    rcases h with h | h <;>
      simp [load_daily_plan, h, List.replicate, dictGetD]

/-- Witness for C8: a legacy-shaped document migrates `morning` into
slot 0. -/
theorem load_daily_plan_spec_witness :
    (load_daily_plan (some (.vDict [("morning", .vStr "rise")]))).tasks =
      ["rise", "", "", ""] :=
  load_daily_plan_spec.2 [("morning", .vStr "rise")] (Or.inl rfl)

/-- C10: `sanitize_profile_name "..."` yields the slug `"."`, which is
non-empty and not reserved, so `create_profile` accepts it; and
`get_profile_data_dir "."` resolves to the profiles root itself,
breaking per-profile directory isolation. -/
theorem dot_profile_escape :
    sanitize_profile_name "..." = "." ∧
    "." ∉ RESERVED_NAMES ∧
    (∀ root, get_profile_data_dir root "." = get_profiles_dir root) ∧
    (∀ (reg : Registry) (now : String),
      profile_exists "." reg = false →
      (list_profiles reg).length < 50 →
      (create_profile "..." now true reg).1.1 = true ∧
      (create_profile "..." now true reg).2.profiles =
        reg.profiles ++ [⟨".", "...", now, now⟩]) := by
  refine ⟨by decide, by decide, fun root => rfl, ?_⟩
  intro reg now h1 h2
  have hsan : sanitize_profile_name "..." = "." := by decide
  simp only [create_profile, hsan]
  rw [if_neg (by decide), if_neg (by decide), if_neg (by simp only [MAX_PROFILES]; omega),
    if_neg (by decide), if_neg (by decide), if_neg (by simp [h1]), if_neg (by decide)]
  exact ⟨rfl, rfl⟩

/-- Witness for C10: creating a profile named `"..."` succeeds against
the default registry. -/
theorem dot_profile_escape_witness :
    (create_profile "..." "2025-01-01T00:00:00" true
      (default_profiles_data "2025-01-01T00:00:00")).1.1 = true :=
  (dot_profile_escape.2.2.2 (default_profiles_data "2025-01-01T00:00:00")
    "2025-01-01T00:00:00" (by decide) (by decide)).1

theorem dictGet?_dictSet_self (fs : List (String × PyVal)) (k : String) (v : PyVal) :
    dictGet? (dictSet fs k v) k = some v := by
  induction fs with
  | nil => simp [dictSet, dictGet?]
  | cons p rest ih =>
      obtain ⟨k', v'⟩ := p
      by_cases h : k' = k <;> simp [dictSet, dictGet?, h, ih]

theorem map_self_iff {α : Type} (f : α → α) (l : List α) :
    l.map f = l ↔ ∀ x ∈ l, f x = x := by
  induction l with
  | nil => simp
  | cons a t ih =>
      simp only [List.map_cons, List.cons.injEq, List.mem_cons, ih]
      constructor
      · rintro ⟨h1, h2⟩ x (rfl | hx)
        · exact h1
        · exact h2 x hx
      · intro h
        exact ⟨h a (Or.inl rfl), fun x hx => h x (Or.inr hx)⟩

theorem archive_step_of_flag_false {cur : String} {p : String × PyVal}
    (h : (archive_step cur p).2 = false) : (archive_step cur p).1 = p := by
  obtain ⟨m, v⟩ := p
  cases v with
  | vDict fs =>
      simp only [archive_step] at h ⊢
      split at h
      next hlt =>
        split at h
        next ha => rw [if_pos hlt, if_pos ha]
        next ha => exact absurd h (by simp)
      next hlt => rw [if_neg hlt]
  | vNone => rfl
  | vBool b => rfl
  | vInt n => rfl
  | vStr s => rfl
  | vList xs => rfl

theorem archive_step_ne_of_flag_true {cur : String} {p : String × PyVal}
    (h : (archive_step cur p).2 = true) : (archive_step cur p).1 ≠ p := by
  obtain ⟨m, v⟩ := p
  cases v with
  | vDict fs =>
      simp only [archive_step] at h ⊢
      split at h
      next hlt =>
        split at h
        next ha => exact absurd h (by simp)
        next ha =>
          rw [if_pos hlt, if_neg ha]
          intro hc
          have hinj : dictSet fs "archived" (.vBool true) = fs := by
            have := (Prod.mk.injEq ..).mp hc
            exact PyVal.vDict.inj this.2
          have hget := dictGet?_dictSet_self fs "archived" (.vBool true)
          rw [hinj] at hget
          rw [dictGetD, hget] at ha
          simp [PyVal.truthy] at ha
      next hlt => exact absurd h (by simp)
  | vNone => exact absurd h (by simp [archive_step])
  | vBool b => exact absurd h (by simp [archive_step])
  | vInt n => exact absurd h (by simp [archive_step])
  | vStr s => exact absurd h (by simp [archive_step])
  | vList xs => exact absurd h (by simp [archive_step])

theorem archive_step_idem {cur : String} (p : String × PyVal) :
    (archive_step cur (archive_step cur p).1).2 = false := by
  obtain ⟨m, v⟩ := p
  cases v with
  | vDict fs =>
      simp only [archive_step]
      by_cases hlt : pyStrLt m cur = true
      · by_cases ha : (dictGetD fs "archived" (.vBool false)).truthy = true
        · rw [if_pos hlt, if_pos ha]
          simp only [archive_step]
          rw [if_pos hlt, if_pos ha]
        · rw [if_pos hlt, if_neg ha]
          simp only [archive_step]
          rw [if_pos hlt, if_pos (by rw [dictGetD, dictGet?_dictSet_self]; rfl)]
      · rw [if_neg hlt]
        simp only [archive_step]
        rw [if_neg hlt]
  | vNone => rfl
  | vBool b => rfl
  | vInt n => rfl
  | vStr s => rfl
  | vList xs => rfl

theorem auto_archive_effective (cur : String) (disk : PyVal) :
    (auto_archive_past_goals cur disk).getD (loadGoalsDoc disk) =
      (loadGoalsDoc disk).map (fun p => (archive_step cur p).1) := by
  simp only [auto_archive_past_goals]
  split
  next hany => simp [List.map_map, Function.comp]
  next hany =>
    have hflags : ∀ p ∈ loadGoalsDoc disk, (archive_step cur p).2 = false := by
      intro p hp
      have h1 : ((loadGoalsDoc disk).map (archive_step cur)).any (·.2) = false := by
        simpa using hany
      have h2 := List.any_eq_false.mp h1 _ (List.mem_map_of_mem _ hp)
      simpa using h2
    simp only [Option.getD_none]
    exact ((map_self_iff _ _).mpr (fun p hp => archive_step_of_flag_false (hflags p hp))).symm

/-- C3: `auto_archive_past_goals(cur)` sets `archived=true` on every
stored record entry whose month key is lexicographically below `cur`
and not already archived, leaves all other entries (later months,
already-archived months, non-record values) unchanged, persists only
when at least one entry changed, and is idempotent. -/
theorem auto_archive_past_goals_spec (cur : String) (disk : PyVal) :
    (∀ (i : Nat) (m : String) (fs : List (String × PyVal)),
      (loadGoalsDoc disk)[i]? = some (m, .vDict fs) →
      ((auto_archive_past_goals cur disk).getD (loadGoalsDoc disk))[i]? =
        some (if pyStrLt m cur && !(dictGetD fs "archived" (.vBool false)).truthy
              then (m, PyVal.vDict (dictSet fs "archived" (.vBool true)))
              else (m, PyVal.vDict fs))) ∧
    (∀ (i : Nat) (p : String × PyVal),
      (loadGoalsDoc disk)[i]? = some p → isPyDict p.2 = false →
      ((auto_archive_past_goals cur disk).getD (loadGoalsDoc disk))[i]? = some p) ∧
    (auto_archive_past_goals cur disk = none ↔
      (loadGoalsDoc disk).map (fun p => (archive_step cur p).1) = loadGoalsDoc disk) ∧
    (∀ newdoc, auto_archive_past_goals cur disk = some newdoc →
      auto_archive_past_goals cur (.vDict newdoc) = none) := by
  refine ⟨?_, ?_, ?_, ?_⟩
  · intro i m fs hi
    rw [auto_archive_effective, List.getElem?_map, hi, Option.map_some']
    congr 1
    simp only [archive_step]
    by_cases hlt : pyStrLt m cur = true
    · by_cases ha : (dictGetD fs "archived" (.vBool false)).truthy = true
      · rw [if_pos hlt, if_pos ha, if_neg (by simp [hlt, ha])]
      · rw [if_pos hlt, if_neg ha, if_pos (by simp [hlt, ha])]
    · rw [if_neg hlt, if_neg (by simp [hlt])]
  · intro i p hi hnd
    rw [auto_archive_effective, List.getElem?_map, hi, Option.map_some']
    congr 1
    obtain ⟨m, v⟩ := p
    cases v with
    | vDict fs => exact absurd hnd (by simp [isPyDict])
    | vNone => rfl
    | vBool b => rfl
    | vInt n => rfl
    | vStr s => rfl
    | vList xs => rfl
  · constructor
    · intro h
      simp only [auto_archive_past_goals] at h
      split at h
      · exact absurd h (Option.some_ne_none _)
      · next hany =>
          have hflags : ∀ p ∈ loadGoalsDoc disk, (archive_step cur p).2 = false := by
            intro p hp
            have h1 : ((loadGoalsDoc disk).map (archive_step cur)).any (·.2) = false := by
              simpa using hany
            have h2 := List.any_eq_false.mp h1 _ (List.mem_map_of_mem _ hp)
            simpa using h2
          exact (map_self_iff _ _).mpr (fun p hp => archive_step_of_flag_false (hflags p hp))
    · intro h
      have hfix := (map_self_iff _ _).mp h
      have hany : ((loadGoalsDoc disk).map (archive_step cur)).any (·.2) = false := by
        rw [List.any_eq_false]
        intro q hq
        obtain ⟨p, hp, rfl⟩ := List.mem_map.mp hq
        intro hflag
        exact archive_step_ne_of_flag_true hflag (hfix p hp)
      simp only [auto_archive_past_goals]
      rw [if_neg (by simp [hany])]
  · intro newdoc h
    simp only [auto_archive_past_goals] at h
    split at h
    · next hany =>
        have hdoc := Option.some.inj h
        have hany2 : (newdoc.map (archive_step cur)).any (·.2) = false := by
          rw [List.any_eq_false]
          intro q hq
          obtain ⟨r, hr, rfl⟩ := List.mem_map.mp hq
          rw [← hdoc] at hr
          obtain ⟨q0, hq0, rfl⟩ := List.mem_map.mp hr
          obtain ⟨p1, hp1, rfl⟩ := List.mem_map.mp hq0
          simp only [Bool.not_eq_true]
          exact archive_step_idem p1
        simp only [auto_archive_past_goals, loadGoalsDoc]
        rw [if_neg (by simp [hany2])]
    · exact absurd h (by simp)

/-- Witness for C3: a past unarchived month gets `archived=true`. -/
theorem auto_archive_past_goals_spec_witness :
    ((auto_archive_past_goals "2025-06" (.vDict [("2025-05", .vDict [])])).getD
        (loadGoalsDoc (.vDict [("2025-05", .vDict [])])))[0]? =
      some ("2025-05", PyVal.vDict [("archived", PyVal.vBool true)]) :=
  ((auto_archive_past_goals_spec "2025-06" (.vDict [("2025-05", .vDict [])])).1
    0 "2025-05" [] rfl).trans (by rfl)

theorem asList_pyOr_vList (xs : List PyVal) :
    asList ((PyVal.vList xs).pyOr (.vList [])) = xs := by
  cases xs <;> simp [PyVal.pyOr, PyVal.truthy, asList]

theorem all_blank_flat (ls : List (List String)) :
    all_blank_str ((ls.map (fun l => PyVal.vList (l.map PyVal.vStr))).foldr
      (fun v acc => match v with | PyVal.vList xs => xs ++ acc | _ => acc) []) =
    ls.all (fun l => l.all (fun s => pyStrip s = "")) := by
  induction ls with
  | nil => rfl
  | cons a t ih =>
      simp only [List.map_cons, List.foldr_cons]
      simp only [all_blank_str, List.all_append, List.all_map, Function.comp] at ih ⊢
      rw [ih]
      congr 1
      induction a with
      | nil => rfl
      | cons s rest iha =>
          simp only [List.map_cons, List.all_cons, iha]
          rfl

theorem is_effectively_blank_to_dict (g : MonthlyGoals) :
    is_effectively_blank g.to_dict = effectively_blank_rec g := by
  simp only [is_effectively_blank, MonthlyGoals.to_dict, dictGetD, dictGet?,
    effectively_blank_rec]
  simp only [String.reduceEq, if_false, if_true, reduceIte, Option.getD_some]
  rw [asList_pyOr_vList, asList_pyOr_vList, asList_pyOr_vList, asList_pyOr_vList,
    all_blank_flat]

theorem is_effectively_blank_stamped (g : MonthlyGoals) (v : PyVal) :
    is_effectively_blank (dictSet g.to_dict "last_saved_by" v) =
      effectively_blank_rec g := by
  simp only [is_effectively_blank, MonthlyGoals.to_dict, dictSet, dictGetD, dictGet?,
    effectively_blank_rec]
  simp only [String.reduceEq, if_false, if_true, reduceIte, Option.getD_some]
  rw [asList_pyOr_vList, asList_pyOr_vList, asList_pyOr_vList, asList_pyOr_vList,
    all_blank_flat]

theorem is_effectively_blank_new_obj (g : MonthlyGoals) (source : String) :
    is_effectively_blank
      (if source ≠ "" then dictSet g.to_dict "last_saved_by" (.vStr source)
       else g.to_dict) = effectively_blank_rec g := by
  by_cases hs : source = ""
  · rw [if_neg (by simp [hs])]
    exact is_effectively_blank_to_dict g
  · rw [if_pos hs]
    exact is_effectively_blank_stamped g _

/-- C2: for a month whose stored entry is a record (dict), saving an
effectively-blank `MonthlyGoals` is a silent no-op (no write), while
saving a non-blank one replaces that month entry wholesale with the
incoming record and persists the document. -/
theorem save_goals_blank_guard (g : MonthlyGoals) (fs e : List (String × PyVal))
    (h : dictGet? fs g.month = some (.vDict e)) :
    (effectively_blank_rec g = true →
      save_goals_for_month g "" (.vDict fs) = none) ∧
    (effectively_blank_rec g = false →
      save_goals_for_month g "" (.vDict fs) =
        some (dictSet fs g.month (.vDict g.to_dict))) := by
  simp only [save_goals_for_month, loadGoalsDoc]
  rw [h]
  have hsrc : (if ("" : String) ≠ "" then dictSet g.to_dict "last_saved_by" (.vStr "")
      else g.to_dict) = g.to_dict := by simp
  rw [hsrc, is_effectively_blank_to_dict]
  constructor
  · intro hb
    rw [if_pos hb]
  · intro hb
    rw [if_neg (by simp [hb])]

/-- Witness for C2: a fully blank record does not overwrite an existing
month entry. -/
theorem save_goals_blank_guard_witness :
    save_goals_for_month (blank_month_goals "2025-05") ""
      (.vDict [("2025-05", .vDict [("goals", .vList [.vStr "keep"])])]) = none :=
  (save_goals_blank_guard (blank_month_goals "2025-05")
    [("2025-05", .vDict [("goals", .vList [.vStr "keep"])])]
    [("goals", .vList [.vStr "keep"])] rfl).1 (by rfl)

/-- C9: the blank-overwrite guard inspects only goal texts, completed
flags, reflections, subtask texts and notes; it is insensitive to
`categories`, `created_at`, `completed_at`, `archived` and
`subtasks_done`, so a record blank in the inspected fields is silently
discarded (no write) however those uninspected fields differ from the
stored entry. -/
theorem blank_guard_ignores_metadata :
    (∀ (g : MonthlyGoals) (source : String) (fs e : List (String × PyVal)),
      dictGet? fs g.month = some (.vDict e) → effectively_blank_rec g = true →
      save_goals_for_month g source (.vDict fs) = none) ∧
    (∀ (g : MonthlyGoals) (cs cr co : List PyVal) (ar : Bool) (sd : List (List Bool)),
      effectively_blank_rec
        { g with categories := cs, created_at := cr, completed_at := co,
                 archived := ar, subtasks_done := sd } = effectively_blank_rec g) := by
  constructor
  · intro g source fs e h hb
    simp only [save_goals_for_month, loadGoalsDoc]
    rw [h, is_effectively_blank_new_obj, hb]
    rfl
  · intro g cs cr co ar sd
    rfl

/-- Witness for C9: an archived-but-otherwise-blank record is silently
dropped. -/
theorem blank_guard_ignores_metadata_witness :
    save_goals_for_month { blank_month_goals "2025-05" with archived := true }
      "dashboard" (.vDict [("2025-05", .vDict [])]) = none :=
  blank_guard_ignores_metadata.1 { blank_month_goals "2025-05" with archived := true }
    "dashboard" [("2025-05", .vDict [])] [] rfl (by rfl)

theorem get_active_cache_some (now : String) (w : World) :
    (get_active_profile_id now w).2.cache = some (get_active_profile_id now w).1 := by
  obtain ⟨cache, ⟨active, profiles⟩, files⟩ := w
  cases cache with
  | some pid => rfl
  | none =>
      cases profiles with
      | nil => rfl
      | cons p t =>
          simp only [get_active_profile_id]
          split
          · rfl
          · rfl

theorem get_active_files (now : String) (w : World) :
    (get_active_profile_id now w).2.files = w.files := by
  obtain ⟨cache, ⟨active, profiles⟩, files⟩ := w
  cases cache with
  | some pid => rfl
  | none =>
      cases profiles with
      | nil => rfl
      | cons p t =>
          simp only [get_active_profile_id]
          split
          · rfl
          · rfl

theorem get_active_profiles (now : String) (w : World) :
    (get_active_profile_id now w).2.registry.profiles = w.registry.profiles ∨
    (w.registry.profiles = [] ∧
      (get_active_profile_id now w).2.registry.profiles =
        [⟨"default", "Default", now, now⟩]) := by
  obtain ⟨cache, ⟨active, profiles⟩, files⟩ := w
  cases cache with
  | some pid => left; rfl
  | none =>
      cases profiles with
      | nil => right; exact ⟨rfl, rfl⟩
      | cons p t =>
          simp only [get_active_profile_id]
          split
          · left; rfl
          · left; rfl

theorem get_active_of_cache {now : String} {w : World} {pid : String}
    (h : w.cache = some pid) : get_active_profile_id now w = (pid, w) := by
  obtain ⟨cache, reg, files⟩ := w
  simp only at h
  subst h
  rfl

/-- C5: `delete_profile("default")` always fails with its specific
message; deleting the currently active profile or an unknown profile
always fails; deleting a valid, inactive, non-default profile succeeds,
removes it from `list_profiles`, and the registry outcome (and return
value) are identical whether or not the best-effort directory delete
succeeds. -/
theorem delete_profile_spec :
    (∀ (now : String) (dirOk : Bool) (w : World),
      delete_profile "default" now dirOk w =
        ((false, "Cannot delete the default profile."), w)) ∧
    (∀ (pid now : String) (dirOk : Bool) (w : World),
      pid = (get_active_profile_id now w).1 →
      (delete_profile pid now dirOk w).1.1 = false) ∧
    (∀ (pid now : String) (dirOk : Bool) (w : World),
      profile_exists pid w.registry = false →
      (delete_profile pid now dirOk w).1.1 = false) ∧
    (∀ (pid now : String) (dirOk : Bool) (w : World),
      pid ≠ "default" → pid ≠ (get_active_profile_id now w).1 →
      profile_exists pid w.registry = true →
      (delete_profile pid now dirOk w).1 = (true, "Profile deleted successfully.") ∧
      (∀ p ∈ list_profiles (delete_profile pid now dirOk w).2.registry, p.id ≠ pid) ∧
      (delete_profile pid now dirOk w).1 = (delete_profile pid now true w).1 ∧
      (delete_profile pid now dirOk w).2.registry =
        (delete_profile pid now true w).2.registry) := by
  refine ⟨?_, ?_, ?_, ?_⟩
  · intro now dirOk w
    simp [delete_profile]
  · intro pid now dirOk w h
    by_cases hd : pid = "default"
    · simp [delete_profile, hd]
    · simp only [delete_profile]
      rw [if_neg hd, if_pos h]
  · intro pid now dirOk w h
    by_cases hd : pid = "default"
    · simp [delete_profile, hd]
    · simp only [delete_profile]
      rw [if_neg hd]
      by_cases ha : pid = (get_active_profile_id now w).1
      · rw [if_pos ha]
      · rw [if_neg ha]
        have hex : profile_exists pid (get_active_profile_id now w).2.registry = false := by
          rcases get_active_profiles now w with hsame | ⟨hnil, hdef⟩
          · simp only [profile_exists, list_profiles] at h ⊢
            rw [hsame, h]
          · simp only [profile_exists, list_profiles] at h ⊢
            rw [hdef]
            simp only [List.any_cons, List.any_nil, Bool.or_false,
              decide_eq_false_iff_not]
            exact fun hh => hd hh.symm
        rw [if_pos (by simp [hex])]
  · intro pid now dirOk w hd ha hex
    have hex1 : profile_exists pid (get_active_profile_id now w).2.registry = true := by
      rcases get_active_profiles now w with hsame | ⟨hnil, hdef⟩
      · simp only [profile_exists, list_profiles] at hex ⊢
        rw [hsame, hex]
      · rw [profile_exists, list_profiles, hnil] at hex
        exact absurd hex (by simp)
    have h3 : ¬(¬ profile_exists pid (get_active_profile_id now w).2.registry = true) := by
      simp [hex1]
    simp only [delete_profile, if_neg hd, if_neg ha, if_neg h3]
    refine ⟨by trivial, ?_, by trivial, by trivial⟩
    intro p hp
    simp only [list_profiles, List.mem_filter] at hp
    simpa using hp.2

/-- Witness for C5: deleting an inactive non-default profile succeeds
even with the directory delete failing. -/
theorem delete_profile_spec_witness :
    (delete_profile "b" "t" false
      ⟨some "default",
       ⟨"default", [⟨"default", "Default", "t0", "t0"⟩, ⟨"b", "B", "t0", "t0"⟩]⟩,
       []⟩).1 = (true, "Profile deleted successfully.") :=
  (delete_profile_spec.2.2.2 "b" "t" false
    ⟨some "default",
     ⟨"default", [⟨"default", "Default", "t0", "t0"⟩, ⟨"b", "B", "t0", "t0"⟩]⟩,
     []⟩ (by decide) (by decide) (by decide)).1

theorem lookupFile_setFile_ne (files : List ((String × String) × PyVal))
    (pid fname pid' fname' : String) (v : PyVal)
    (h : (pid', fname') ≠ (pid, fname)) :
    lookupFile (setFile files pid fname v) pid' fname' =
      lookupFile files pid' fname' := by
  induction files with
  | nil =>
      simp only [setFile, lookupFile]
      rw [if_neg (fun hh => h hh.symm)]
  | cons e rest ih =>
      obtain ⟨key, v0⟩ := e
      by_cases hk : key = (pid, fname)
      · subst hk
        simp only [setFile, if_pos rfl, lookupFile]
        rw [if_neg (by simpa using h.symm), if_neg (by simpa using h.symm)]
      · simp only [setFile, if_neg hk, lookupFile]
        by_cases hk' : key = (pid', fname')
        · rw [if_pos hk', if_pos hk']
        · rw [if_neg hk', if_neg hk', ih]

/-- C6: after saving a Daily Activity document while profile `A` is
active and then successfully switching to profile `B`, loading Daily
Activity reads `B`s stored file (dict-normalised), untouched by the
save under `A` — load/save re-resolve the active profile at call
time. -/
theorem active_profile_isolation (w : World) (A B : String) (data : PyVal)
    (n0 n1 n2 n3 : String) (w2 : World)
    (hA : (get_active_profile_id n0 w).1 = A)
    (hAB : A ≠ B)
    (hset : set_active_profile B n2
      (save_daily_activity data n1 (get_active_profile_id n0 w).2) = (true, w2)) :
    (load_daily_activity n3 w2).1 =
      (if isPyDict ((lookupFile w.files B "tracker.json").getD (.vDict []))
       then (lookupFile w.files B "tracker.json").getD (.vDict [])
       else .vDict []) := by
  set w0 := (get_active_profile_id n0 w).2 with hw0
  have hc0 : w0.cache = some A := by
    rw [hw0, get_active_cache_some, hA]
  have hf0 : w0.files = w.files := by
    rw [hw0, get_active_files]
  have hsave : save_daily_activity data n1 w0 =
      { w0 with files := setFile w0.files A "tracker.json" data } := by
    simp only [save_daily_activity, save_profile_json, get_active_of_cache hc0]
  rw [hsave] at hset
  set w1 : World := { w0 with files := setFile w0.files A "tracker.json" data } with hw1
  simp only [set_active_profile] at hset
  split at hset
  · exact absurd (congrArg Prod.fst hset) (by simp)
  · have hw2 := (Prod.mk.injEq ..).mp hset
    have hw2' := hw2.2
    have hc2 : w2.cache = some B := by rw [← hw2']
    have hf2 : w2.files = w1.files := by rw [← hw2']
    simp only [load_daily_activity, load_profile_json, get_active_of_cache hc2]
    rw [hf2]
    have : lookupFile w1.files B "tracker.json" = lookupFile w.files B "tracker.json" := by
      rw [hw1]
      simp only
      rw [hf0]
      exact lookupFile_setFile_ne w.files A "tracker.json" B "tracker.json" data
        (by simp [Ne.symm hAB])
    rw [this]

/-- Witness for C6: a concrete two-profile world where the data saved
under the old active profile does not leak into the new one. -/
theorem active_profile_isolation_witness :
    (load_daily_activity "t3"
      ⟨some "b",
       ⟨"b", [⟨"default", "Default", "t0", "t0"⟩, ⟨"b", "B", "t0", "t3"⟩]⟩,
       [(("b", "tracker.json"), .vDict [("2025-01-01", .vDict [("reading", .vBool true)])]),
        (("default", "tracker.json"), .vDict [("2025-02-02", .vDict [("writing", .vBool true)])])]⟩).1 =
      .vDict [("2025-01-01", .vDict [("reading", .vBool true)])] := by
  have := active_profile_isolation
    ⟨some "default",
     ⟨"default", [⟨"default", "Default", "t0", "t0"⟩, ⟨"b", "B", "t0", "t0"⟩]⟩,
     [(("b", "tracker.json"), .vDict [("2025-01-01", .vDict [("reading", .vBool true)])])]⟩
    "default" "b" (.vDict [("2025-02-02", .vDict [("writing", .vBool true)])])
    "t0" "t1" "t3" "t3"
    ⟨some "b",
     ⟨"b", [⟨"default", "Default", "t0", "t0"⟩, ⟨"b", "B", "t0", "t3"⟩]⟩,
     [(("b", "tracker.json"), .vDict [("2025-01-01", .vDict [("reading", .vBool true)])]),
      (("default", "tracker.json"), .vDict [("2025-02-02", .vDict [("writing", .vBool true)])])]⟩
    rfl (by decide) rfl
  simpa using this

theorem mem_replace2 {c a b : Char} {rep : List Char} :
    ∀ {l : List Char}, c ∈ replace2 a b rep l → c ∈ l ∨ c ∈ rep := by
  intro l
  induction l using replace2.induct a b rep with
  | case1 => intro h; simp [replace2] at h
  | case2 d => intro h; simp [replace2] at h; simp [h]
  | case3 d e rest hcond ih =>
      intro h
      rw [replace2, if_pos hcond] at h
      rcases List.mem_append.mp h with h | h
      · right; exact h
      · rcases ih h with h | h
        · left; simp [h]
        · right; exact h
  | case4 d e rest hcond ih =>
      intro h
      rw [replace2, if_neg hcond] at h
      rcases List.mem_cons.mp h with h | h
      · left; simp [h]
      · rcases ih h with h | h
        · left; simp [List.mem_cons.mp h]
        · right; exact h

theorem replace2_length_le (a b : Char) (rep : List Char) (hrep : rep.length ≤ 2) :
    ∀ l : List Char, (replace2 a b rep l).length ≤ l.length := by
  intro l
  induction l using replace2.induct a b rep with
  | case1 => simp [replace2]
  | case2 d => simp [replace2]
  | case3 d e rest hcond ih =>
      rw [replace2, if_pos hcond]
      simp only [List.length_append, List.length_cons]
      omega
  | case4 d e rest hcond ih =>
      rw [replace2, if_neg hcond]
      simp only [List.length_cons] at ih ⊢
      omega

theorem replace2_length_lt (a b : Char) (rep : List Char) (hrep : rep.length ≤ 1) :
    ∀ l : List Char, hasPair a b l = true → (replace2 a b rep l).length < l.length := by
  intro l
  induction l using replace2.induct a b rep with
  | case1 => intro h; simp [hasPair] at h
  | case2 d => intro h; simp [hasPair] at h
  | case3 d e rest hcond ih =>
      intro h
      rw [replace2, if_pos hcond]
      have := replace2_length_le a b rep (by omega) rest
      simp only [List.length_append, List.length_cons]
      omega
  | case4 d e rest hcond ih =>
      intro h
      rw [hasPair, if_neg hcond] at h
      rw [replace2, if_neg hcond]
      have := ih h
      simp only [List.length_cons] at this ⊢
      omega

theorem collapse_fuel_no_pair :
    ∀ (fuel : Nat) (l : List Char), l.length ≤ fuel →
      hasPair '_' '_' (collapseUnderscoresFuel fuel l) = false := by
  intro fuel
  induction fuel with
  | zero =>
      intro l hl
      have : l = [] := List.length_eq_zero.mp (Nat.le_zero.mp hl)
      subst this
      rfl
  | succ n ih =>
      intro l hl
      rw [collapseUnderscoresFuel]
      by_cases h : hasPair '_' '_' l = true
      · rw [if_pos h]
        apply ih
        have := replace2_length_lt '_' '_' ['_'] (by simp) l h
        omega
      · rw [if_neg h]
        exact Bool.not_eq_true _ ▸ h

theorem collapse_no_pair (l : List Char) :
    hasPair '_' '_' (collapseUnderscores l) = false :=
  collapse_fuel_no_pair l.length l (Nat.le_refl _)

theorem mem_collapse_fuel {c : Char} :
    ∀ (fuel : Nat) (l : List Char), c ∈ collapseUnderscoresFuel fuel l →
      c ∈ l ∨ c = '_' := by
  intro fuel
  induction fuel with
  | zero => intro l h; exact Or.inl h
  | succ n ih =>
      intro l h
      rw [collapseUnderscoresFuel] at h
      split at h
      · rcases ih _ h with h2 | h2
        · rcases mem_replace2 h2 with h3 | h3
          · exact Or.inl h3
          · right; simpa using h3
        · exact Or.inr h2
      · exact Or.inl h

theorem collapse_fuel_length_le :
    ∀ (fuel : Nat) (l : List Char), (collapseUnderscoresFuel fuel l).length ≤ l.length := by
  intro fuel
  induction fuel with
  | zero => intro l; exact Nat.le_refl _
  | succ n ih =>
      intro l
      rw [collapseUnderscoresFuel]
      split
      · have h1 := ih (replace2 '_' '_' ['_'] l)
        have h2 := replace2_length_le '_' '_' ['_'] (by simp) l
        omega
      · exact Nat.le_refl _

theorem dropWhile_head_not {p : Char → Bool} :
    ∀ {l : List Char} {c : Char}, (l.dropWhile p).head? = some c → p c = false := by
  intro l
  induction l with
  | nil => intro c h; simp [List.dropWhile] at h
  | cons a t ih =>
      intro c h
      by_cases hp : p a = true
      · rw [List.dropWhile_cons, if_pos hp] at h
        exact ih h
      · rw [List.dropWhile_cons, if_neg hp] at h
        simp only [List.head?_cons, Option.some.injEq] at h
        subst h
        exact Bool.not_eq_true _ ▸ hp

theorem stripEnds_head_not {p : Char → Bool} {l : List Char} {c : Char}
    (h : (stripEnds p l).head? = some c) : p c = false := by
  unfold stripEnds at h
  set u := l.dropWhile p with hu
  set v := u.reverse.dropWhile p with hv
  have hsplit : u.reverse = u.reverse.takeWhile p ++ v := (List.takeWhile_append_dropWhile p u.reverse).symm
  have hvne : v.reverse ≠ [] := by
    intro hnil
    rw [hnil] at h
    simp at h
  have hueq : u = v.reverse ++ (u.reverse.takeWhile p).reverse := by
    have := congrArg List.reverse hsplit
    simpa [List.reverse_append] using this
  have huhead : u.head? = some c := by
    rw [hueq, List.head?_append_of_ne_nil _ hvne, h]
  exact dropWhile_head_not (hu ▸ huhead)

theorem stripEnds_getLast_not {p : Char → Bool} {l : List Char} {c : Char}
    (h : (stripEnds p l).getLast? = some c) : p c = false := by
  unfold stripEnds at h
  rw [List.getLast?_reverse] at h
  exact dropWhile_head_not h

theorem mem_stripEnds {p : Char → Bool} {l : List Char} {c : Char}
    (h : c ∈ stripEnds p l) : c ∈ l := by
  unfold stripEnds at h
  rw [List.mem_reverse] at h
  have h1 := (List.dropWhile_sublist p).mem h
  rw [List.mem_reverse] at h1
  exact (List.dropWhile_sublist p).mem h1

theorem hasPair_cons {a b c : Char} {t : List Char}
    (h : hasPair a b t = true) : hasPair a b (c :: t) = true := by
  cases t with
  | nil => simp [hasPair] at h
  | cons d rest =>
      rw [hasPair]
      split
      · rfl
      · exact h

theorem hasPair_append_right {a b : Char} (y : List Char) :
    ∀ {s : List Char}, hasPair a b s = true → hasPair a b (s ++ y) = true := by
  intro s
  induction s using hasPair.induct a b with
  | case1 => intro h; simp [hasPair] at h
  | case2 d => intro h; simp [hasPair] at h
  | case3 d e rest hcond =>
      intro h
      rw [List.cons_append, List.cons_append, hasPair, if_pos hcond]
  | case4 d e rest hcond ih =>
      intro h
      rw [hasPair, if_neg hcond] at h
      rw [List.cons_append, List.cons_append, hasPair, if_neg hcond]
      exact List.cons_append .. ▸ ih h

theorem hasPair_append_left {a b : Char} :
    ∀ (x : List Char) {s : List Char}, hasPair a b s = true → hasPair a b (x ++ s) = true := by
  intro x
  induction x with
  | nil => intro s h; simpa using h
  | cons c x' ih =>
      intro s h
      rw [List.cons_append]
      exact hasPair_cons (ih h)

theorem stripEnds_no_pair {a b : Char} {p : Char → Bool} {l : List Char}
    (h : hasPair a b l = false) : hasPair a b (stripEnds p l) = false := by
  by_contra hc
  rw [Bool.not_eq_false] at hc
  set u := l.dropWhile p with hu
  set v := u.reverse.dropWhile p with hv
  have h0 : u.reverse = u.reverse.takeWhile p ++ v := (List.takeWhile_append_dropWhile p u.reverse).symm
  have hueq : u = v.reverse ++ (u.reverse.takeWhile p).reverse := by
    calc u = u.reverse.reverse := (List.reverse_reverse u).symm
    _ = (u.reverse.takeWhile p ++ v).reverse := by rw [← h0]
    _ = v.reverse ++ (u.reverse.takeWhile p).reverse := by rw [List.reverse_append]
  have hlu : l = l.takeWhile p ++ u := (List.takeWhile_append_dropWhile p l).symm
  have h1 : hasPair a b u = true := by
    rw [hueq]
    exact hasPair_append_right _ hc
  have h2 : hasPair a b l = true := by
    rw [hlu]
    exact hasPair_append_left _ h1
  rw [h2] at h
  exact Bool.true_eq_false ▸ h

theorem toNat_ofNat_valid {n : Nat} (h : n.isValidChar) : (Char.ofNat n).toNat = n := by
  rw [Char.ofNat, dif_pos h]
  rfl

theorem char_isUpper_iff (c : Char) : c.isUpper = true ↔ 65 ≤ c.toNat ∧ c.toNat ≤ 90 := by
  simp only [Char.isUpper, Bool.and_eq_true, decide_eq_true_eq, ge_iff_le]
  exact Iff.rfl

theorem toLower_isUpper_false (c : Char) : c.toLower.isUpper = false := by
  simp only [Char.toLower]
  split
  next h =>
    have hv : (c.toNat + 32).isValidChar := Or.inl (by omega)
    rw [Bool.eq_false_iff]
    intro hu
    have := (char_isUpper_iff _).mp hu
    rw [toNat_ofNat_valid hv] at this
    omega
  next h =>
    rw [Bool.eq_false_iff]
    intro hu
    exact h ((char_isUpper_iff _).mp hu)

theorem invalid_chars_not_lowercase_range :
    ∀ c ∈ INVALID_CHARS, ¬(97 ≤ c.toNat ∧ c.toNat ≤ 122) := by decide

theorem mem_invalid_of_toLower_mem {e : Char}
    (h : e.toLower ∈ INVALID_CHARS) : e ∈ INVALID_CHARS := by
  by_cases hb : 65 ≤ e.toNat ∧ e.toNat ≤ 90
  · exfalso
    have hv : (e.toNat + 32).isValidChar := Or.inl (by omega)
    have hlow : e.toLower.toNat = e.toNat + 32 := by
      simp only [Char.toLower]
      rw [if_pos (by omega : e.toNat ≥ 65 ∧ e.toNat ≤ 90)]
      exact toNat_ofNat_valid hv
    exact invalid_chars_not_lowercase_range _ h (by omega)
  · have : e.toLower = e := by
      simp only [Char.toLower]
      rw [if_neg (by omega : ¬(e.toNat ≥ 65 ∧ e.toNat ≤ 90))]
    rwa [this] at h

theorem mem_foldl_filter :
    ∀ (cs : List Char) (init : List Char) (c : Char),
      c ∈ cs.foldl (fun acc ch => acc.filter (fun x => x ≠ ch)) init →
      c ∈ init ∧ c ∉ cs := by
  intro cs
  induction cs with
  | nil => intro init c h; exact ⟨h, by simp⟩
  | cons ch cs' ih =>
      intro init c h
      simp only [List.foldl_cons] at h
      obtain ⟨h1, h2⟩ := ih _ _ h
      have h3 := List.mem_filter.mp h1
      refine ⟨h3.1, ?_⟩
      simp only [List.mem_cons]
      rintro (rfl | hc)
      · simp at h3
      · exact h2 hc

theorem stripEnds_length_le (p : Char → Bool) (l : List Char) :
    (stripEnds p l).length ≤ l.length := by
  unfold stripEnds
  calc ((l.dropWhile p).reverse.dropWhile p).reverse.length
      = ((l.dropWhile p).reverse.dropWhile p).length := List.length_reverse _
    _ ≤ (l.dropWhile p).reverse.length := (List.dropWhile_sublist p).length_le
    _ = (l.dropWhile p).length := List.length_reverse _
    _ ≤ l.length := (List.dropWhile_sublist p).length_le

theorem sanitize_tail_props (n6 : List Char)
    (hup : ∀ c ∈ n6, c.isUpper = false)
    (hinv : ∀ c ∈ n6, c ∉ INVALID_CHARS)
    (hlen : n6.length ≤ 30) :
    (∀ c ∈ stripEnds (fun c => c = '_') (collapseUnderscores n6), c.isUpper = false) ∧
    hasPair '_' '_' (stripEnds (fun c => c = '_') (collapseUnderscores n6)) = false ∧
    (stripEnds (fun c => c = '_') (collapseUnderscores n6)).head? ≠ some '_' ∧
    (stripEnds (fun c => c = '_') (collapseUnderscores n6)).getLast? ≠ some '_' ∧
    (∀ c ∈ stripEnds (fun c => c = '_') (collapseUnderscores n6), c ∉ INVALID_CHARS) ∧
    (stripEnds (fun c => c = '_') (collapseUnderscores n6)).length ≤ 30 := by
  have hmem : ∀ c ∈ stripEnds (fun c => c = '_') (collapseUnderscores n6),
      c ∈ n6 ∨ c = '_' := by
    intro c hc
    exact mem_collapse_fuel _ _ (mem_stripEnds hc)
  refine ⟨?_, ?_, ?_, ?_, ?_, ?_⟩
  · intro c hc
    rcases hmem c hc with h | h
    · exact hup c h
    · subst h; decide
  · exact stripEnds_no_pair (collapse_no_pair n6)
  · intro h
    have := stripEnds_head_not h
    simp at this
  · intro h
    have := stripEnds_getLast_not h
    simp at this
  · intro c hc
    rcases hmem c hc with h | h
    · exact hinv c h
    · subst h; decide
  · calc (stripEnds (fun c => c = '_') (collapseUnderscores n6)).length
        ≤ (collapseUnderscores n6).length := stripEnds_length_le _ _
      _ ≤ n6.length := collapse_fuel_length_le _ _
      _ ≤ 30 := hlen

/-- C4: `sanitize_profile_name` output is lowercase (no ASCII
uppercase), contains no doubled underscore, no leading or trailing
underscore, none of the defined invalid characters, and is at most 30
characters; and after `create_profile` succeeds for one display name,
a different display name that sanitises to the same slug is rejected
as a duplicate. -/
theorem sanitize_profile_name_spec :
    (∀ s : String,
      (∀ c ∈ (sanitize_profile_name s).data, c.isUpper = false) ∧
      hasPair '_' '_' (sanitize_profile_name s).data = false ∧
      (sanitize_profile_name s).data.head? ≠ some '_' ∧
      (sanitize_profile_name s).data.getLast? ≠ some '_' ∧
      (∀ c ∈ (sanitize_profile_name s).data, c ∉ INVALID_CHARS) ∧
      (sanitize_profile_name s).data.length ≤ 30) ∧
    (∀ (n1 n2 now1 now2 msg1 : String) (reg reg' : Registry),
      n1 ≠ n2 → sanitize_profile_name n1 = sanitize_profile_name n2 →
      1 ≤ n2.length → n2.length ≤ 30 → reg.profiles.length < 49 →
      create_profile n1 now1 true reg = ((true, msg1), reg') →
      create_profile n2 now2 true reg' =
        ((false, "Profile " ++ pyQuote n2 ++ " already exists."), reg')) := by
  constructor
  · intro s
    by_cases hs : s = ""
    · subst hs
      exact ⟨by decide, by decide, by decide, by decide, by decide, by decide⟩
    · simp only [sanitize_profile_name, if_neg hs]
      apply sanitize_tail_props
      · intro c hc
        obtain ⟨d, hd, rfl⟩ := List.mem_map.mp hc
        obtain ⟨e, he, rfl⟩ := List.mem_map.mp hd
        by_cases hsp : e.toLower = ' '
        · rw [if_pos hsp]; decide
        · rw [if_neg hsp]; exact toLower_isUpper_false e
      · intro c hc
        obtain ⟨d, hd, rfl⟩ := List.mem_map.mp hc
        obtain ⟨e, he, rfl⟩ := List.mem_map.mp hd
        by_cases hsp : e.toLower = ' '
        · rw [if_pos hsp]; decide
        · rw [if_neg hsp]
          intro hmem
          have he2 : e ∈ replace2 '.' '.' []
              (INVALID_CHARS.foldl (fun acc ch => acc.filter (fun c => c ≠ ch))
                (stripEnds (fun c => c.isWhitespace) s.data)) :=
            List.take_subset _ _ he
          have he3 := mem_replace2 he2
          simp only [List.not_mem_nil, or_false] at he3
          have he4 := mem_foldl_filter _ _ _ he3
          exact he4.2 (mem_invalid_of_toLower_mem hmem)
      · simp only [List.length_map, List.length_take, MAX_PROFILE_NAME_LENGTH]
        omega
  · intro n1 n2 now1 now2 msg1 reg reg' hne hsan hlen1 hlen2 hcount hfirst
    simp only [create_profile, MIN_PROFILE_NAME_LENGTH, MAX_PROFILE_NAME_LENGTH,
      MAX_PROFILES, list_profiles] at hfirst ⊢
    split at hfirst
    · simp at hfirst
    split at hfirst
    · simp at hfirst
    split at hfirst
    · simp at hfirst
    split at hfirst
    · simp at hfirst
    split at hfirst
    · simp at hfirst
    split at hfirst
    · simp at hfirst
    split at hfirst
    · simp at hfirst
    next h1 h2 h3 hpid hres hex hdir =>
      have hreg' : reg' = { reg with profiles :=
          reg.profiles ++ [⟨sanitize_profile_name n1, n1, now1, now1⟩] } := by
        have := (Prod.mk.injEq ..).mp hfirst
        exact this.2.symm
      rw [if_neg (by omega), if_neg (by omega),
        if_neg (by rw [hreg']; simp; omega), ← hsan,
        if_neg hpid, if_neg hres, if_pos (by
          rw [hreg']
          simp only [profile_exists, list_profiles, List.any_append, List.any_cons,
            List.any_nil, Bool.or_false]
          simp)]

/-- Witness for C4: `"My  Language"` and `"my language"` share the slug
`"my_language"`, so the second creation fails as a duplicate. -/
theorem sanitize_profile_name_spec_witness :
    create_profile "my language" "t1" true
      { active_profile := "default",
        profiles := [⟨"default", "Default", "t0", "t0"⟩,
                     ⟨"my_language", "My  Language", "t0", "t0"⟩] } =
      ((false, "Profile " ++ pyQuote "my language" ++ " already exists."),
       { active_profile := "default",
         profiles := [⟨"default", "Default", "t0", "t0"⟩,
                      ⟨"my_language", "My  Language", "t0", "t0"⟩] }) :=
  sanitize_profile_name_spec.2 "My  Language" "my language" "t0" "t1"
    ("Profile " ++ pyQuote "My  Language" ++ " created successfully.")
    { active_profile := "default", profiles := [⟨"default", "Default", "t0", "t0"⟩] }
    { active_profile := "default",
      profiles := [⟨"default", "Default", "t0", "t0"⟩,
                   ⟨"my_language", "My  Language", "t0", "t0"⟩] }
    (by decide) (by decide) (by decide) (by decide) (by decide) rfl

theorem except_bind_ok {α β : Type} {e : Except String α} {f : α → Except String β}
    {r : β} (h : e >>= f = .ok r) : ∃ a, e = .ok a ∧ f a = .ok r := by
  cases e with
  | ok a => exact ⟨a, rfl, h⟩
  | error s => simp [Bind.bind, Except.bind] at h

theorem pad_list_length (l : List PyVal) (d : PyVal) : (pad_list l d).length = 3 := by
  simp only [pad_list, List.length_take, List.length_append, List.length_replicate]
  omega

theorem pad_list_of_length {l : List PyVal} (d : PyVal) (h : l.length = 3) :
    pad_list l d = l := by
  simp [pad_list, h, List.take_of_length_le]

theorem norm_slot_length (st dn : PyVal) :
    (norm_slot st dn).2.length = (norm_slot st dn).1.length := by
  simp only [norm_slot, List.length_map, List.length_take, List.length_append,
    List.length_replicate]
  omega

theorem norm_slot_enc (l : List String) (bl : List Bool) (h : bl.length = l.length) :
    norm_slot (.vList (l.map .vStr)) (.vList (bl.map .vBool)) = (l, bl) := by
  simp only [norm_slot, List.length_map, h, Nat.sub_self, List.replicate_zero,
    List.append_nil]
  simp only [Prod.mk.injEq]
  constructor
  · rw [List.map_map]
    exact List.map_id'' (fun s => rfl) _
  · rw [List.take_of_length_le (by simp [h]), List.map_map]
    exact List.map_id'' (fun b => rfl) _

theorem pyOr_blank_idem (x : PyVal) :
    (x.pyOr (.vStr "")).pyOr (.vStr "") = x.pyOr (.vStr "") := by
  by_cases h : x.truthy = true
  · have hx : x.pyOr (.vStr "") = x := by rw [PyVal.pyOr, if_pos h]
    rw [hx]
    exact hx
  · have hx : x.pyOr (.vStr "") = .vStr "" := by rw [PyVal.pyOr, if_neg h]
    rw [hx]
    rfl

theorem pyOr_vList_cons (x : PyVal) (xs : List PyVal) (d : PyVal) :
    (PyVal.vList (x :: xs)).pyOr d = .vList (x :: xs) := by
  simp [PyVal.pyOr, PyVal.truthy]

theorem slots_map_range3 (x1 x2 x3 y1 y2 y3 : PyVal) :
    (List.range 3).map (fun i =>
      norm_slot
        (([x1, x2, x3] ++
            List.replicate (3 - [x1, x2, x3].length) (PyVal.vList [])).getD i (.vList []))
        (([y1, y2, y3] ++
            List.replicate (3 - [y1, y2, y3].length) (PyVal.vList [])).getD i (.vList []))) =
    [norm_slot x1 y1, norm_slot x2 y2, norm_slot x3 y3] := rfl

theorem normalize_reload (r : MonthlyGoals)
    (hg : r.goals.length = 3) (hc : r.completed.length = 3)
    (hcat : r.categories.length = 3) (href : r.reflections.length = 3)
    (hca : r.created_at.length = 3) (hcp : r.completed_at.length = 3)
    (hst : r.subtasks.length = 3) (hsd : r.subtasks_done.length = 3)
    (hslot : ∀ i, (r.subtasks_done.getD i []).length = (r.subtasks.getD i []).length)
    (hnotes : r.notes.pyOr (.vStr "") = r.notes) :
    normalize_month r.month (.vDict r.to_dict) = .ok r := by
  obtain ⟨month, goals, completed, notes, archived, categories, reflections, st, sd, ca, cp⟩ := r
  dsimp only at hg hc hcat href hca hcp hst hsd hslot hnotes ⊢
  obtain ⟨g1, g2, g3, rfl⟩ := List.length_eq_three.mp hg
  obtain ⟨c1, c2, c3, rfl⟩ := List.length_eq_three.mp hc
  obtain ⟨k1, k2, k3, rfl⟩ := List.length_eq_three.mp hcat
  obtain ⟨f1, f2, f3, rfl⟩ := List.length_eq_three.mp href
  obtain ⟨a1, a2, a3, rfl⟩ := List.length_eq_three.mp hca
  obtain ⟨p1, p2, p3, rfl⟩ := List.length_eq_three.mp hcp
  obtain ⟨s1, s2, s3, rfl⟩ := List.length_eq_three.mp hst
  obtain ⟨d1, d2, d3, rfl⟩ := List.length_eq_three.mp hsd
  have h0 := hslot 0
  have h1 := hslot 1
  have h2 := hslot 2
  simp only [List.getD, List.getElem?_cons_zero, List.getElem?_cons_succ,
    Option.getD_some] at h0 h1 h2
  simp only [normalize_month, MonthlyGoals.to_dict, dictGetD, dictGet?,
    String.reduceEq, reduceIte, Option.getD_some, pyOr_vList_cons, List.map_cons,
    List.map_nil, pyToList, Bind.bind, Except.bind]
  rw [slots_map_range3]
  simp only [pure, Except.pure, Except.ok.injEq, MonthlyGoals.mk.injEq]
  refine ⟨by trivial, ?_, ?_, hnotes, by trivial, ?_, ?_, ?_, ?_, ?_, ?_⟩
  · exact pad_list_of_length _ rfl
  · exact pad_list_of_length _ rfl
  · exact pad_list_of_length _ rfl
  · exact pad_list_of_length _ rfl
  · rw [norm_slot_enc s1 d1 h0, norm_slot_enc s2 d2 h1, norm_slot_enc s3 d3 h2]
    rfl
  · rw [norm_slot_enc s1 d1 h0, norm_slot_enc s2 d2 h1, norm_slot_enc s3 d3 h2]
    rfl
  · exact pad_list_of_length _ rfl
  · exact pad_list_of_length _ rfl

theorem getD_map_len (slots : List (List String × List Bool))
    (h : ∀ p ∈ slots, p.2.length = p.1.length) (i : Nat) :
    ((slots.map (·.2)).getD i []).length = ((slots.map (·.1)).getD i []).length := by
  rcases hx : slots[i]? with _ | p
  · simp [List.getD, List.getElem?_map, hx]
  · have hp : p ∈ slots := List.getElem?_mem hx
    simp [List.getD, List.getElem?_map, hx, h p hp]

theorem normalize_month_normalized (month : String) (raw : PyVal) (r : MonthlyGoals)
    (h : normalize_month month raw = .ok r) :
    (r.goals.length = 3 ∧ r.completed.length = 3 ∧ r.categories.length = 3 ∧
     r.reflections.length = 3 ∧ r.created_at.length = 3 ∧ r.completed_at.length = 3 ∧
     r.subtasks.length = 3 ∧ r.subtasks_done.length = 3) ∧
    (∀ i, (r.subtasks_done.getD i []).length = (r.subtasks.getD i []).length) ∧
    r.month = month ∧
    normalize_month month (.vDict r.to_dict) = .ok r := by
  cases raw with
  | vDict fs =>
      simp only [normalize_month] at h
      obtain ⟨goals, hg, h⟩ := except_bind_ok h
      obtain ⟨completed, hc, h⟩ := except_bind_ok h
      obtain ⟨categories, hcat, h⟩ := except_bind_ok h
      obtain ⟨reflections, href, h⟩ := except_bind_ok h
      obtain ⟨created_at, hca, h⟩ := except_bind_ok h
      obtain ⟨completed_at, hcp, h⟩ := except_bind_ok h
      simp only [pure, Except.pure, Except.ok.injEq] at h
      subst h
      have hslots : ∀ p ∈ (List.range 3).map (fun i =>
          norm_slot
            (((match (dictGetD fs "subtasks" .vNone).pyOr (.vList []) with
                | PyVal.vList xs => xs
                | _ => []) ++
              List.replicate (3 - (match (dictGetD fs "subtasks" .vNone).pyOr (.vList []) with
                | PyVal.vList xs => xs
                | _ => []).length) (PyVal.vList [])).getD i (.vList []))
            (((match (dictGetD fs "subtasks_done" .vNone).pyOr (.vList []) with
                | PyVal.vList xs => xs
                | _ => []) ++
              List.replicate (3 - (match (dictGetD fs "subtasks_done" .vNone).pyOr (.vList []) with
                | PyVal.vList xs => xs
                | _ => []).length) (PyVal.vList [])).getD i (.vList []))),
          p.2.length = p.1.length := by
        intro p hp
        obtain ⟨i, _, rfl⟩ := List.mem_map.mp hp
        exact norm_slot_length _ _
      refine ⟨⟨pad_list_length _ _, pad_list_length _ _, pad_list_length _ _,
        pad_list_length _ _, pad_list_length _ _, pad_list_length _ _,
        by simp, by simp⟩, ?_, rfl, ?_⟩
      · intro i
        exact getD_map_len _ hslots i
      · exact normalize_reload _ (pad_list_length _ _) (pad_list_length _ _)
          (pad_list_length _ _) (pad_list_length _ _) (pad_list_length _ _)
          (pad_list_length _ _) (by simp) (by simp)
          (fun i => getD_map_len _ hslots i) (pyOr_blank_idem _)
  | vNone =>
      simp only [normalize_month, Except.ok.injEq] at h
      subst h
      exact ⟨⟨rfl, rfl, rfl, rfl, rfl, rfl, rfl, rfl⟩,
        fun i => by cases i with
          | zero => rfl
          | succ n => cases n with
            | zero => rfl
            | succ m => cases m <;> rfl,
        rfl,
        normalize_reload _ rfl rfl rfl rfl rfl rfl rfl rfl
          (fun i => by cases i with
            | zero => rfl
            | succ n => cases n with
              | zero => rfl
              | succ m => cases m <;> rfl) rfl⟩
  | vBool b =>
      simp only [normalize_month, Except.ok.injEq] at h
      subst h
      exact ⟨⟨rfl, rfl, rfl, rfl, rfl, rfl, rfl, rfl⟩,
        fun i => by cases i with
          | zero => rfl
          | succ n => cases n with
            | zero => rfl
            | succ m => cases m <;> rfl,
        rfl,
        normalize_reload _ rfl rfl rfl rfl rfl rfl rfl rfl
          (fun i => by cases i with
            | zero => rfl
            | succ n => cases n with
              | zero => rfl
              | succ m => cases m <;> rfl) rfl⟩
  | vInt n =>
      simp only [normalize_month, Except.ok.injEq] at h
      subst h
      exact ⟨⟨rfl, rfl, rfl, rfl, rfl, rfl, rfl, rfl⟩,
        fun i => by cases i with
          | zero => rfl
          | succ n => cases n with
            | zero => rfl
            | succ m => cases m <;> rfl,
        rfl,
        normalize_reload _ rfl rfl rfl rfl rfl rfl rfl rfl
          (fun i => by cases i with
            | zero => rfl
            | succ n => cases n with
              | zero => rfl
              | succ m => cases m <;> rfl) rfl⟩
  | vStr s =>
      simp only [normalize_month, Except.ok.injEq] at h
      subst h
      exact ⟨⟨rfl, rfl, rfl, rfl, rfl, rfl, rfl, rfl⟩,
        fun i => by cases i with
          | zero => rfl
          | succ n => cases n with
            | zero => rfl
            | succ m => cases m <;> rfl,
        rfl,
        normalize_reload _ rfl rfl rfl rfl rfl rfl rfl rfl
          (fun i => by cases i with
            | zero => rfl
            | succ n => cases n with
              | zero => rfl
              | succ m => cases m <;> rfl) rfl⟩
  | vList xs =>
      simp only [normalize_month, Except.ok.injEq] at h
      subst h
      exact ⟨⟨rfl, rfl, rfl, rfl, rfl, rfl, rfl, rfl⟩,
        fun i => by cases i with
          | zero => rfl
          | succ n => cases n with
            | zero => rfl
            | succ m => cases m <;> rfl,
        rfl,
        normalize_reload _ rfl rfl rfl rfl rfl rfl rfl rfl
          (fun i => by cases i with
            | zero => rfl
            | succ n => cases n with
              | zero => rfl
              | succ m => cases m <;> rfl) rfl⟩

/-- C1 (amended): whenever `load_goals_for_month` returns a record
(it raises `TypeError` when a present, truthy scalar array field is not
iterable), all array fields have exactly length 3, each
`subtasks_done[i]` has exactly the length of `subtasks[i]`, subtask
texts/flags and `archived` are coerced (str/bool, by construction of
the loader), and re-normalising the stored form of the returned record
yields the same record (idempotence).  The scalar array elements and
`notes` are only padded/truncated, not type-coerced — see the
counterexample `load_goals_no_scalar_coercion`. -/
theorem load_goals_for_month_normalization (month : String) (disk : PyVal)
    (r : MonthlyGoals) (h : load_goals_for_month month disk = .ok r) :
    (r.goals.length = 3 ∧ r.completed.length = 3 ∧ r.categories.length = 3 ∧
     r.reflections.length = 3 ∧ r.created_at.length = 3 ∧ r.completed_at.length = 3 ∧
     r.subtasks.length = 3 ∧ r.subtasks_done.length = 3) ∧
    (∀ i, (r.subtasks_done.getD i []).length = (r.subtasks.getD i []).length) ∧
    load_goals_for_month month (.vDict [(month, .vDict r.to_dict)]) = .ok r := by
  have hn := normalize_month_normalized month
    ((dictGet? (loadGoalsDoc disk) month).getD .vNone) r h
  refine ⟨hn.1, hn.2.1, ?_⟩
  have hget : dictGet? [(month, PyVal.vDict r.to_dict)] month = some (.vDict r.to_dict) := by
    simp [dictGet?]
  simp only [load_goals_for_month, loadGoalsDoc]
  rw [hget]
  exact hn.2.2.2

/-- Counterexample for C1 as stated: a stored `goals` array whose
element is the integer `5` is returned as-is in slot 0 — not coerced to
a string as the claim asserts. -/
theorem load_goals_no_scalar_coercion :
    load_goals_for_month "2025-01"
      (.vDict [("2025-01", .vDict [("goals", .vList [.vInt 5])])]) =
      .ok { month := "2025-01"
            goals := [.vInt 5, .vStr "", .vStr ""]
            completed := [.vBool false, .vBool false, .vBool false]
            notes := .vStr ""
            archived := false
            categories := [.vStr "General", .vStr "General", .vStr "General"]
            reflections := [.vStr "", .vStr "", .vStr ""]
            subtasks := [[], [], []]
            subtasks_done := [[], [], []]
            created_at := [.vStr "", .vStr "", .vStr ""]
            completed_at := [.vStr "", .vStr "", .vStr ""] } ∧
    isPyStr (.vInt 5) = false :=
  ⟨rfl, rfl⟩

/-- Witness for C1: re-normalising a stored blank record reproduces
it. -/
theorem load_goals_for_month_normalization_witness :
    load_goals_for_month "2025-01"
      (.vDict [("2025-01", .vDict (blank_month_goals "2025-01").to_dict)]) =
      .ok (blank_month_goals "2025-01") :=
  (load_goals_for_month_normalization "2025-01" .vNone (blank_month_goals "2025-01")
    rfl).2.2
